import Mathlib

/-!
Verification of the dynamical-friction hardening module
(`src/code/evolve_lzk/dynamical_friction.py`).

The module is a handful of closed-form real formulas applied element-wise to
scalar or equal-length array inputs.  Arrays are embedded as functions
`Fin n → ℝ` with numpy element-wise semantics; a boolean-masked in-place
update of an array becomes a pointwise conditional.  Collaborators that live
outside the sources are passed as explicit parameters, as the spec directs:
the physical constants `NWTG` and `MSOL`, the settings object with its two
disk flags, and the conversion routine `dvdt_to_dadt`.  The `ValueError`
raised for an unrecognized mass-selection policy is modelled with `Except`.

A second, store-passing embedding (`hardenStore`) tracks array allocation and
in-place mutation explicitly, in order to settle the frame and purity claims:
numpy arithmetic allocates fresh arrays, while masked assignment mutates the
array it is applied to in place.
-/

set_option maxHeartbeats 1000000
set_option linter.unusedVariables false

noncomputable section

/-- Mathematical error function, modelling `scipy.special.erf`:
`erf x = (2 / sqrt pi) * ∫ t in 0..x, exp (-t^2)`. -/
def erf (x : ℝ) : ℝ := 2 / Real.sqrt Real.pi * ∫ t in (0:ℝ)..x, Real.exp (-t ^ 2)

/-- Configuration attributes of the `Dynamical_Friction` class (class-level
constants in the source, lines 17-23; the spec describes them as configuration
fixed at construction, so they are modelled as a structure of parameters). -/
structure DFConfig where
  DF_WHICH_BH : ℤ
  COULOMB_LOGARITHM : ℝ
  DF_ATTENUATED : Bool
  GAS_VEL_SOFT : ℝ
  MSTAR : ℝ
  SELF_GRAV_RAD_MULT : ℝ

/-- Default attribute values from the source class body (lines 17-23). -/
def defaultDF : DFConfig where
  DF_WHICH_BH := 2
  COULOMB_LOGARITHM := 15
  DF_ATTENUATED := true
  GAS_VEL_SOFT := 1
  MSTAR := 0.6
  SELF_GRAV_RAD_MULT := 1

/-- Modelled from the spec: the settings object `self.sets` comes from the
`Hardening_Mechanism` base class, which is not among the sources; per the spec
it exposes two boolean flags controlling circumbinary-disk suppression of the
gas drag (`VISC_DISK_FLAG`, `SELF_GRAV_RAD`). -/
structure Settings where
  VISC_DISK_FLAG : Bool
  SELF_GRAV_RAD : Bool

/-- Translation of `_dvdt_full` (lines 107-121): Chandrasekhar dynamical
friction deceleration for a Maxwellian background.  The gravitational constant
`NWTG` is imported from outside the sources and is passed as a parameter.
The `rads` argument is accepted and unused, exactly as in the source. -/
def _dvdt_full (NWTG mass_obj rads dens vel_obj vdisp coul : ℝ) : ℝ :=
  let velf := vel_obj / (vdisp * Real.sqrt 2)
  let const := -4 * Real.pi * NWTG ^ 2
  let pref := mass_obj * dens / vel_obj ^ 2
  let erfs := |erf velf - 2 * velf / Real.sqrt Real.pi * Real.exp (-velf ^ 2)|
  const * pref * erfs * coul

/-- Translation of `_vel_circ` (lines 151-156). -/
def _vel_circ (NWTG m1 m2 sep : ℝ) : ℝ :=
  let mtot := m1 + m2
  let mrat := m2 / m1
  let vels := Real.sqrt (NWTG * mtot / sep)
  vels / (1 + mrat)

/-- Loss-cone attenuation factor computed inside `_dvdt_attenuated`
(lines 139-142). -/
def lcAtten (mass_obj rads rads_hard mstar mass_stars : ℝ) : ℝ :=
  let numStars := mass_stars / mstar
  let atten1 := Real.log numStars * rads_hard / rads
  let atten2 := (mass_obj / mass_stars) ^ 2 * numStars
  max atten1 atten2

/-- Translation of `_dvdt_attenuated` (lines 124-148) over equal-length array
inputs, with numpy element-wise semantics: the masked in-place division
`dvdt_atten[inds] /= lcAtten[inds]` with `inds = (rads < rads_hard)` divides
exactly the elements inside the hard-binary regime and leaves the others at
the full-formula value. -/
def _dvdt_attenuated (NWTG : ℝ) {n : ℕ} (mass_obj rads dens vel_obj vdisp : Fin n → ℝ)
    (coul : ℝ) (rads_hard : Fin n → ℝ) (mstar : ℝ) (mass_stars : Fin n → ℝ) : Fin n → ℝ :=
  fun i =>
    let dvdt_atten := _dvdt_full NWTG (mass_obj i) (rads i) (dens i) (vel_obj i) (vdisp i) coul
    if rads i < rads_hard i then
      dvdt_atten / lcAtten (mass_obj i) (rads i) (rads_hard i) mstar (mass_stars i)
    else dvdt_atten

/-- Error message raised for an unrecognized `DF_WHICH_BH` (lines 71-73). -/
def errStr (which_bh : ℤ) : String :=
  "Unrecognized value for self.DF_WHICH_BH = " ++ toString which_bh ++ "!"

/-- The object-mass selection chain opening `harden` (lines 64-73): `1` selects
the primary mass, `2` the secondary mass, `0` the sum `m1 + m2`; anything else
raises `ValueError`.  Generic over the value type so that it covers both array
and scalar inputs. -/
def massObjSel {α : Type} [Add α] (which_bh : ℤ) (m1 m2 : α) : Except String α :=
  if which_bh = 1 then Except.ok m1
  else if which_bh = 2 then Except.ok m2
  else if which_bh = 0 then Except.ok (m1 + m2)
  else Except.error (errStr which_bh)

/-- Gas-drag slice of `harden` (lines 82-89): full-formula gas drag with the
effective dispersion `vdisp * GAS_VEL_SOFT`, followed, when both disk flags
are set, by the masked assignment `dvdt_g[inds] = 0.0` with
`inds = (rads < rads_sg) & (rads_sg > 0.0)`. -/
def gasDvdt (cfg : DFConfig) (sets : Settings) (NWTG : ℝ) {n : ℕ}
    (mass_obj rads dens_gas vcirc vdisp rads_sg : Fin n → ℝ) : Fin n → ℝ :=
  let gas_vel := fun i => vdisp i * cfg.GAS_VEL_SOFT
  let dvdt_g := fun i =>
    _dvdt_full NWTG (mass_obj i) (rads i) (dens_gas i) (vcirc i) (gas_vel i) cfg.COULOMB_LOGARITHM
  if sets.VISC_DISK_FLAG && sets.SELF_GRAV_RAD then
    fun i => if rads i < rads_sg i ∧ 0 < rads_sg i then 0 else dvdt_g i
  else dvdt_g

/-- Translation of `Dynamical_Friction.harden` (lines 28-104) over equal-length
array inputs.  The conversion routine `dvdt_to_dadt` is applied element-wise
and the second component of its result, the characteristic timescale, is
discarded (lines 101-104). -/
def harden (cfg : DFConfig) (sets : Settings) (NWTG MSOL : ℝ)
    (dvdt_to_dadt : ℝ → ℝ → ℝ → ℝ × ℝ) {n : ℕ}
    (m1 m2 rads dens_gas dens_stars dens_dm vdisp rads_hard mass_stars rads_sg : Fin n → ℝ) :
    Except String ((Fin n → ℝ) × (Fin n → ℝ)) :=
  match massObjSel cfg.DF_WHICH_BH m1 m2 with
  | Except.error e => Except.error e
  | Except.ok mass_obj =>
    let coulomb := cfg.COULOMB_LOGARITHM
    let vcirc := fun i => _vel_circ NWTG (m1 i) (m2 i) (rads i)
    let dvdt_g := gasDvdt cfg sets NWTG mass_obj rads dens_gas vcirc vdisp rads_sg
    let dens_other := fun i => dens_stars i + dens_dm i
    let dvdt :=
      if cfg.DF_ATTENUATED then
        _dvdt_attenuated NWTG mass_obj rads dens_other vcirc vdisp coulomb rads_hard
          (cfg.MSTAR * MSOL) mass_stars
      else
        fun i => _dvdt_full NWTG (mass_obj i) (rads i) (dens_other i) (vcirc i) (vdisp i) coulomb
    let dadt := fun i => (dvdt_to_dadt (rads i) (vcirc i) (dvdt i)).1
    let dadt_g := fun i => (dvdt_to_dadt (rads i) (vcirc i) (dvdt_g i)).1
    Except.ok (dadt, dadt_g)

/-- Runs `harden` and projects out the returned pair of arrays, defaulting to
zero on error; used to state concrete facts about the returned arrays. -/
def hardenRun (cfg : DFConfig) (sets : Settings) (NWTG MSOL : ℝ)
    (dvdt_to_dadt : ℝ → ℝ → ℝ → ℝ × ℝ) {n : ℕ}
    (m1 m2 rads dens_gas dens_stars dens_dm vdisp rads_hard mass_stars rads_sg : Fin n → ℝ) :
    (Fin n → ℝ) × (Fin n → ℝ) :=
  match harden cfg sets NWTG MSOL dvdt_to_dadt m1 m2 rads dens_gas dens_stars dens_dm
      vdisp rads_hard mass_stars rads_sg with
  | Except.ok p => p
  | Except.error _ => (0, 0)

/-- The TypeError produced by item assignment on a numpy scalar. -/
def scalarAssignErr : String := "TypeError: object does not support item assignment"

/-- Translation of `harden` on plain scalar inputs, under numpy scalar
semantics: arithmetic on scalar inputs produces numpy scalar values, and the
boolean-mask item assignments at line 89 (`dvdt_g[inds] = 0.0`) and line 146
(`dvdt_atten[inds] /= lcAtten[inds]`) raise `TypeError` on a numpy scalar,
modelled as `Except.error scalarAssignErr`.  The first error site is reached
exactly when both disk flags are set, the second exactly when `DF_ATTENUATED`
is set. -/
def hardenScalar (cfg : DFConfig) (sets : Settings) (NWTG MSOL : ℝ)
    (dvdt_to_dadt : ℝ → ℝ → ℝ → ℝ × ℝ)
    (m1 m2 rads dens_gas dens_stars dens_dm vdisp rads_hard mass_stars rads_sg : ℝ) :
    Except String (ℝ × ℝ) :=
  match massObjSel cfg.DF_WHICH_BH m1 m2 with
  | Except.error e => Except.error e
  | Except.ok mass_obj =>
    let coulomb := cfg.COULOMB_LOGARITHM
    let vcirc := _vel_circ NWTG m1 m2 rads
    let gas_vel := vdisp * cfg.GAS_VEL_SOFT
    let dvdt_g := _dvdt_full NWTG mass_obj rads dens_gas vcirc gas_vel coulomb
    if sets.VISC_DISK_FLAG && sets.SELF_GRAV_RAD then
      Except.error scalarAssignErr
    else
      let dens_other := dens_stars + dens_dm
      if cfg.DF_ATTENUATED then
        Except.error scalarAssignErr
      else
        let dvdt := _dvdt_full NWTG mass_obj rads dens_other vcirc vdisp coulomb
        Except.ok ((dvdt_to_dadt rads vcirc dvdt).1, (dvdt_to_dadt rads vcirc dvdt_g).1)

/-- Statement of the full-drag formula exactly as the spec words it
(spec section 4, full-drag formula): velocity ratio `x = v_obj / (v_disp sqrt 2)`,
error-function term `|erf x - (2 x / sqrt pi) exp (-x^2)|`, and deceleration
`-4 pi G^2 m_obj dens erf_term coulomb_log / v_obj^2`. -/
def chandrasekharSpec (NWTG mass_obj dens vel_obj vdisp coul : ℝ) : ℝ :=
  let x := vel_obj / (vdisp * Real.sqrt 2)
  let erf_term := |erf x - 2 * x / Real.sqrt Real.pi * Real.exp (-x ^ 2)|;
  -4 * Real.pi * NWTG ^ 2 * mass_obj * dens * erf_term * coul / vel_obj ^ 2

/-- Strict positivity of the error-function combination at a positive argument:
the integrand `exp (-t^2)` strictly dominates its endpoint value on `(0, x)`. -/
theorem erf_term_pos {x : ℝ} (hx : 0 < x) :
    0 < erf x - 2 * x / Real.sqrt Real.pi * Real.exp (-x ^ 2) := by
  have hlt : (∫ t in (0:ℝ)..x, Real.exp (-x ^ 2)) < ∫ t in (0:ℝ)..x, Real.exp (-t ^ 2) := by
    apply intervalIntegral.integral_lt_integral_of_continuousOn_of_le_of_exists_lt hx
    · exact continuousOn_const
    · exact (Real.continuous_exp.comp (continuous_pow 2).neg).continuousOn
    · intro t ht
      have h1 : t ^ 2 ≤ x ^ 2 := by nlinarith [ht.1, ht.2]
      exact Real.exp_le_exp.mpr (by linarith)
    · refine ⟨0, Set.left_mem_Icc.mpr hx.le, ?_⟩
      have h2 : -x ^ 2 < -(0:ℝ) ^ 2 := by nlinarith
      exact Real.exp_lt_exp.mpr (by simpa using h2)
  have hconst : (∫ t in (0:ℝ)..x, Real.exp (-x ^ 2)) = x * Real.exp (-x ^ 2) := by
    rw [intervalIntegral.integral_const]
    simp [smul_eq_mul]
  have key : x * Real.exp (-x ^ 2) < ∫ t in (0:ℝ)..x, Real.exp (-t ^ 2) := hconst ▸ hlt
  have hpi : 0 < Real.sqrt Real.pi := Real.sqrt_pos.mpr Real.pi_pos
  have expand : erf x - 2 * x / Real.sqrt Real.pi * Real.exp (-x ^ 2)
      = 2 / Real.sqrt Real.pi
        * ((∫ t in (0:ℝ)..x, Real.exp (-t ^ 2)) - x * Real.exp (-x ^ 2)) := by
    simp only [erf]
    ring
  rw [expand]
  have h2 : 0 < 2 / Real.sqrt Real.pi := by positivity
  exact mul_pos h2 (sub_pos.mpr key)

/-- Sign of the full-drag formula: with positive gravitational constant, mass,
density, velocity, dispersion and coulomb factor, `_dvdt_full` is strictly
negative (a genuine deceleration). -/
theorem dvdt_full_neg {NWTG mass_obj rads dens vel_obj vdisp coul : ℝ}
    (hG : 0 < NWTG) (hm : 0 < mass_obj) (hd : 0 < dens) (hv : 0 < vel_obj)
    (hs : 0 < vdisp) (hc : 0 < coul) :
    _dvdt_full NWTG mass_obj rads dens vel_obj vdisp coul < 0 := by
  have hvf : 0 < vel_obj / (vdisp * Real.sqrt 2) := by positivity
  have hterm := erf_term_pos hvf
  simp only [_dvdt_full]
  set velf := vel_obj / (vdisp * Real.sqrt 2) with hvelf
  rw [abs_of_pos hterm]
  have hpref : 0 < mass_obj * dens / vel_obj ^ 2 := by positivity
  have h4 : 0 < 4 * Real.pi * NWTG ^ 2 := by positivity
  nlinarith [mul_pos (mul_pos h4 hpref) (mul_pos hterm hc)]

/-- C4: for every input, `_dvdt_full` computes exactly the Chandrasekhar
dynamical-friction formula as the spec words it, with
`x = vel_obj / (vdisp * sqrt 2)`,
`erf_term = |erf x - (2 x / sqrt pi) exp (-x^2)|`, and result
`-4 pi G^2 * mass_obj * dens * erf_term * coul / vel_obj^2`. -/
theorem C4_dvdt_full_matches_spec (NWTG mass_obj rads dens vel_obj vdisp coul : ℝ) :
    _dvdt_full NWTG mass_obj rads dens vel_obj vdisp coul
      = chandrasekharSpec NWTG mass_obj dens vel_obj vdisp coul := by
  simp only [_dvdt_full, chandrasekharSpec]
  ring

/-- C5: `_vel_circ` equals `sqrt (G (m1+m2) / rads) / (1 + m2 / m1)`; for
positive inputs it is strictly decreasing in the separation; and at `m2 = 0`
it reduces to `sqrt (G m1 / rads)`. -/
theorem C5_vel_circ_props (NWTG m1 m2 rads rads2 : ℝ) :
    _vel_circ NWTG m1 m2 rads = Real.sqrt (NWTG * (m1 + m2) / rads) / (1 + m2 / m1) ∧
    (0 < NWTG → 0 < m1 → 0 < m2 → 0 < rads → rads < rads2 →
      _vel_circ NWTG m1 m2 rads2 < _vel_circ NWTG m1 m2 rads) ∧
    (0 < m1 → _vel_circ NWTG m1 0 rads = Real.sqrt (NWTG * m1 / rads)) := by
  refine ⟨rfl, ?_, ?_⟩
  · intro hG hm1 hm2 hr hlt
    simp only [_vel_circ]
    have hden : 0 < 1 + m2 / m1 := by positivity
    have hnum : 0 < NWTG * (m1 + m2) := by positivity
    have harg : NWTG * (m1 + m2) / rads2 < NWTG * (m1 + m2) / rads :=
      div_lt_div_of_pos_left hnum hr hlt
    have hr2 : 0 < rads2 := hr.trans hlt
    have hsq : Real.sqrt (NWTG * (m1 + m2) / rads2) < Real.sqrt (NWTG * (m1 + m2) / rads) :=
      Real.sqrt_lt_sqrt (by positivity) harg
    exact (div_lt_div_iff_of_pos_right hden).mpr hsq
  · intro hm1
    simp only [_vel_circ, add_zero, zero_div, div_one]

/-- Witness for C5 at concrete inputs. -/
theorem C5_vel_circ_props_witness : _vel_circ 1 1 1 4 < _vel_circ 1 1 1 1 :=
  (C5_vel_circ_props 1 1 1 1 4).2.1 (by norm_num) (by norm_num) (by norm_num)
    (by norm_num) (by norm_num)

/-- C2 (amended): outside the hard-binary regime (`rads >= rads_hard`) the
attenuated deceleration equals the full-drag value exactly; inside the regime
(`rads < rads_hard`), whenever the loss-cone attenuation factor
`max (atten1, atten2)` is at least one, the attenuated magnitude is at most
the full-drag magnitude.  (The factor can fall below one, in which case the
division amplifies the deceleration: see the counterexample.) -/
theorem C2_attenuation_bound (NWTG : ℝ) {n : ℕ}
    (mass_obj rads dens vel_obj vdisp : Fin n → ℝ) (coul : ℝ) (rads_hard : Fin n → ℝ)
    (mstar : ℝ) (mass_stars : Fin n → ℝ) (i : Fin n) :
    (rads_hard i ≤ rads i →
      _dvdt_attenuated NWTG mass_obj rads dens vel_obj vdisp coul rads_hard mstar mass_stars i
        = _dvdt_full NWTG (mass_obj i) (rads i) (dens i) (vel_obj i) (vdisp i) coul) ∧
    (rads i < rads_hard i →
      1 ≤ lcAtten (mass_obj i) (rads i) (rads_hard i) mstar (mass_stars i) →
      |_dvdt_attenuated NWTG mass_obj rads dens vel_obj vdisp coul rads_hard mstar mass_stars i|
        ≤ |_dvdt_full NWTG (mass_obj i) (rads i) (dens i) (vel_obj i) (vdisp i) coul|) := by
  constructor
  · intro h
    simp only [_dvdt_attenuated]
    rw [if_neg (not_lt.mpr h)]
  · intro h hlc
    simp only [_dvdt_attenuated]
    rw [if_pos h, abs_div, abs_of_pos (lt_of_lt_of_le one_pos hlc)]
    exact div_le_self (abs_nonneg _) hlc

/-- Witness for C2 at concrete inputs where the attenuation factor is two. -/
theorem C2_attenuation_bound_witness :
    |_dvdt_attenuated 1 (fun _ : Fin 1 => 1) (fun _ => 1) (fun _ => 9) (fun _ => 2)
        (fun _ => 3) 15 (fun _ => 2) 1 (fun _ => Real.exp 1) 0|
      ≤ |_dvdt_full 1 1 1 9 2 3 15| := by
  have hlc : (1:ℝ) ≤ lcAtten 1 1 2 1 (Real.exp 1) := by
    simp only [lcAtten, div_one]
    refine le_max_of_le_left ?_
    rw [Real.log_exp]
    norm_num
  exact (C2_attenuation_bound 1 (fun _ : Fin 1 => 1) (fun _ => 1) (fun _ => 9) (fun _ => 2)
    (fun _ => 3) 15 (fun _ => 2) 1 (fun _ => Real.exp 1) 0).2 (by norm_num) hlc

/-- C2 counterexample: at a concrete input inside the hard-binary regime the
attenuation factor is `log 2 * (6/5) < 1`, so the attenuated magnitude strictly
exceeds the full-drag magnitude; attenuation can amplify. -/
theorem C2_counterexample :
    (fun _ : Fin 1 => (1:ℝ)) 0 < (fun _ : Fin 1 => (6/5:ℝ)) 0 ∧
    |_dvdt_full 1 (1/10) 1 7 1 1 15| <
      |_dvdt_attenuated 1 (fun _ : Fin 1 => 1/10) (fun _ => 1) (fun _ => 7) (fun _ => 1)
        (fun _ => 1) 15 (fun _ => 6/5) 1 (fun _ => 2) 0| := by
  constructor
  · norm_num
  · have hlog1 : (0.6931471803 : ℝ) < Real.log 2 := Real.log_two_gt_d9
    have hlog2 : Real.log 2 < 0.6931471808 := Real.log_two_lt_d9
    have hlc : lcAtten (1/10) 1 (6/5) 1 2 = Real.log 2 * (6/5) := by
      simp only [lcAtten, div_one]
      rw [max_eq_left (by nlinarith)]
    have hfull : _dvdt_full 1 (1/10) 1 7 1 1 15 < 0 :=
      dvdt_full_neg (by norm_num) (by norm_num) (by norm_num) (by norm_num)
        (by norm_num) (by norm_num)
    have hattv : _dvdt_attenuated 1 (fun _ : Fin 1 => 1/10) (fun _ => 1) (fun _ => 7)
        (fun _ => 1) (fun _ => 1) 15 (fun _ => 6/5) 1 (fun _ => 2) 0
        = _dvdt_full 1 (1/10) 1 7 1 1 15 / lcAtten (1/10) 1 (6/5) 1 2 := by
      simp only [_dvdt_attenuated]
      rw [if_pos (by norm_num : (1:ℝ) < 6/5)]
    rw [hattv, hlc, abs_div, abs_of_pos (by nlinarith : (0:ℝ) < Real.log 2 * (6/5))]
    rw [lt_div_iff₀ (by nlinarith : (0:ℝ) < Real.log 2 * (6/5))]
    have habs : 0 < |_dvdt_full 1 (1/10) 1 7 1 1 15| := abs_pos.mpr (ne_of_lt hfull)
    nlinarith [habs]

/-- Boolean success test for an `Except` value. -/
def exceptOk {ε α : Type} : Except ε α → Bool
  | Except.ok _ => true
  | Except.error _ => false

/-- Configuration with the object-mass policy 0 (summed masses), for
witnesses. -/
def dfPolicy0 : DFConfig where
  DF_WHICH_BH := 0
  COULOMB_LOGARITHM := 15
  DF_ATTENUATED := true
  GAS_VEL_SOFT := 1
  MSTAR := 0.6
  SELF_GRAV_RAD_MULT := 1

/-- Configuration with the out-of-range object-mass policy 5, for witnesses. -/
def dfPolicy5 : DFConfig where
  DF_WHICH_BH := 5
  COULOMB_LOGARITHM := 15
  DF_ATTENUATED := true
  GAS_VEL_SOFT := 1
  MSTAR := 0.6
  SELF_GRAV_RAD_MULT := 1

/-- Characterization of a successful `harden` call: element-wise, the gas
component is the converted `gasDvdt` value and the total component is the
converted background deceleration (attenuated or full per `DF_ATTENUATED`). -/
theorem harden_ok (cfg : DFConfig) (sets : Settings) (NWTG MSOL : ℝ)
    (f : ℝ → ℝ → ℝ → ℝ × ℝ) {n : ℕ}
    (m1 m2 rads dens_gas dens_stars dens_dm vdisp rads_hard mass_stars rads_sg : Fin n → ℝ)
    (mass_obj : Fin n → ℝ)
    (hm : massObjSel cfg.DF_WHICH_BH m1 m2 = Except.ok mass_obj) :
    harden cfg sets NWTG MSOL f m1 m2 rads dens_gas dens_stars dens_dm vdisp rads_hard
        mass_stars rads_sg
      = Except.ok
        (fun i => (f (rads i) (_vel_circ NWTG (m1 i) (m2 i) (rads i))
            ((if cfg.DF_ATTENUATED then
                _dvdt_attenuated NWTG mass_obj rads (fun j => dens_stars j + dens_dm j)
                  (fun j => _vel_circ NWTG (m1 j) (m2 j) (rads j)) vdisp cfg.COULOMB_LOGARITHM
                  rads_hard (cfg.MSTAR * MSOL) mass_stars
              else fun j => _dvdt_full NWTG (mass_obj j) (rads j) (dens_stars j + dens_dm j)
                  (_vel_circ NWTG (m1 j) (m2 j) (rads j)) (vdisp j) cfg.COULOMB_LOGARITHM) i)).1,
         fun i => (f (rads i) (_vel_circ NWTG (m1 i) (m2 i) (rads i))
            (gasDvdt cfg sets NWTG mass_obj rads dens_gas
              (fun j => _vel_circ NWTG (m1 j) (m2 j) (rads j)) vdisp rads_sg i)).1) := by
  simp only [harden, hm]

/-- C1 (amended): with both disk flags set, the gas-drag deceleration is forced
to exactly zero at each element whose separation lies below a positive
self-gravity radius (`rads < rads_sg` and `rads_sg > 0`, the mask of source
line 88); every other element, and every element when either flag is unset,
keeps the full-formula gas-drag value. -/
theorem C1_gas_drag_zeroing (cfg : DFConfig) (sets : Settings) (NWTG : ℝ) {n : ℕ}
    (mass_obj rads dens_gas vcirc vdisp rads_sg : Fin n → ℝ) (i : Fin n) :
    (sets.VISC_DISK_FLAG = true → sets.SELF_GRAV_RAD = true →
      rads i < rads_sg i → 0 < rads_sg i →
      gasDvdt cfg sets NWTG mass_obj rads dens_gas vcirc vdisp rads_sg i = 0) ∧
    ((sets.VISC_DISK_FLAG = false ∨ sets.SELF_GRAV_RAD = false ∨
        ¬ rads i < rads_sg i ∨ rads_sg i ≤ 0) →
      gasDvdt cfg sets NWTG mass_obj rads dens_gas vcirc vdisp rads_sg i
        = _dvdt_full NWTG (mass_obj i) (rads i) (dens_gas i) (vcirc i)
            (vdisp i * cfg.GAS_VEL_SOFT) cfg.COULOMB_LOGARITHM) := by
  constructor
  · intro h1 h2 h3 h4
    simp only [gasDvdt, h1, h2, Bool.and_self, if_true]
    rw [if_pos ⟨h3, h4⟩]
  · intro h
    rcases Bool.eq_false_or_eq_true (sets.VISC_DISK_FLAG && sets.SELF_GRAV_RAD) with hb | hb
    · have hmask : ¬ (rads i < rads_sg i ∧ 0 < rads_sg i) := by
        rw [Bool.and_eq_true] at hb
        rcases h with h | h | h | h
        · rw [h] at hb
          exact absurd hb.1 (by simp)
        · rw [h] at hb
          exact absurd hb.2 (by simp)
        · exact fun hc => h hc.1
        · exact fun hc => absurd hc.2 (not_lt.mpr h)
      simp only [gasDvdt, hb, if_true]
      rw [if_neg hmask]
    · simp only [gasDvdt, hb, Bool.false_eq_true, if_false]

/-- Witness for C1 (amended) at a concrete element below the self-gravity
radius. -/
theorem C1_gas_drag_zeroing_witness :
    gasDvdt defaultDF ⟨true, true⟩ 1 (fun _ : Fin 1 => 3) (fun _ => 1) (fun _ => 4)
      (fun _ => 5) (fun _ => 6) (fun _ => 2) 0 = 0 :=
  (C1_gas_drag_zeroing defaultDF ⟨true, true⟩ 1 (fun _ : Fin 1 => 3) (fun _ => 1) (fun _ => 4)
    (fun _ => 5) (fun _ => 6) (fun _ => 2) 0).1 rfl rfl (by norm_num) (by norm_num)

/-- C1 counterexample: both disk flags set, valid self-gravity radius
`rads_sg = 1 > 0`, separation `rads = 2 > rads_sg`; the claim demands a zero
gas-drag deceleration there, but `harden` (observed through a pass-through
conversion routine) returns a nonzero gas-drag value: the source mask is
`rads < rads_sg`, not `rads > rads_sg`. -/
theorem C1_counterexample :
    (fun _ : Fin 1 => (2:ℝ)) 0 > (fun _ : Fin 1 => (1:ℝ)) 0 ∧
    (fun _ : Fin 1 => (1:ℝ)) 0 > 0 ∧
    (hardenRun defaultDF ⟨true, true⟩ 1 1 (fun _ _ a => (a, a))
        (fun _ : Fin 1 => 1) (fun _ => 1) (fun _ => 2) (fun _ => 7) (fun _ => 3) (fun _ => 4)
        (fun _ => 1) (fun _ => 5) (fun _ => 6) (fun _ => 1)).2 0 ≠ 0 := by
  refine ⟨by norm_num, by norm_num, ?_⟩
  have hm : massObjSel defaultDF.DF_WHICH_BH (fun _ : Fin 1 => (1:ℝ)) (fun _ => (1:ℝ))
      = Except.ok (fun _ => (1:ℝ)) := rfl
  have h := harden_ok defaultDF ⟨true, true⟩ 1 1 (fun _ _ a => (a, a))
      (fun _ : Fin 1 => 1) (fun _ => 1) (fun _ => 2) (fun _ => 7) (fun _ => 3) (fun _ => 4)
      (fun _ => 1) (fun _ => 5) (fun _ => 6) (fun _ => 1) (fun _ => 1) hm
  simp only [hardenRun, h]
  have hvc : _vel_circ 1 1 1 2 = 1 / 2 := by
    simp only [_vel_circ]
    norm_num [Real.sqrt_one]
  have hneg : _dvdt_full 1 1 2 7 (_vel_circ 1 1 1 2) (1 * 1) 15 < 0 := by
    rw [hvc]
    exact dvdt_full_neg (by norm_num) (by norm_num) (by norm_num) (by norm_num)
      (by norm_num) (by norm_num)
  have hgas : gasDvdt defaultDF ⟨true, true⟩ 1 (fun _ : Fin 1 => 1) (fun _ => 2) (fun _ => 7)
      (fun j => _vel_circ 1 1 1 2) (fun _ => 1) (fun _ => 1) 0
      = _dvdt_full 1 1 2 7 (_vel_circ 1 1 1 2) (1 * 1) 15 := by
    simp only [gasDvdt, Bool.and_self, if_true]
    rw [if_neg (by norm_num)]
    simp [defaultDF]
  simpa [hgas] using ne_of_lt hneg

/-- C3: the object-mass selection policy of `harden` uses `m1 + m2` for policy
0, `m1` for policy 1, `m2` for policy 2; any other policy value yields the
configuration error on every input, independent of all array arguments (no
array mathematics contributes to the result) and with no internal recovery. -/
theorem C3_mass_policy (cfg : DFConfig) (sets : Settings) (NWTG MSOL : ℝ)
    (f : ℝ → ℝ → ℝ → ℝ × ℝ) {n : ℕ}
    (m1 m2 rads dens_gas dens_stars dens_dm vdisp rads_hard mass_stars rads_sg : Fin n → ℝ) :
    (cfg.DF_WHICH_BH = 0 → massObjSel cfg.DF_WHICH_BH m1 m2 = Except.ok (m1 + m2)) ∧
    (cfg.DF_WHICH_BH = 1 → massObjSel cfg.DF_WHICH_BH m1 m2 = Except.ok m1) ∧
    (cfg.DF_WHICH_BH = 2 → massObjSel cfg.DF_WHICH_BH m1 m2 = Except.ok m2) ∧
    (cfg.DF_WHICH_BH ≠ 0 → cfg.DF_WHICH_BH ≠ 1 → cfg.DF_WHICH_BH ≠ 2 →
      harden cfg sets NWTG MSOL f m1 m2 rads dens_gas dens_stars dens_dm vdisp rads_hard
          mass_stars rads_sg
        = Except.error (errStr cfg.DF_WHICH_BH)) := by
  refine ⟨?_, ?_, ?_, ?_⟩
  · intro h
    simp [massObjSel, h]
  · intro h
    simp [massObjSel, h]
  · intro h
    simp [massObjSel, h]
  · intro h0 h1 h2
    simp only [harden, massObjSel, if_neg h1, if_neg h2, if_neg h0]

/-- Witness for C3: policy 0 selects the summed masses, and the out-of-range
policy 5 makes `harden` return the configuration error. -/
theorem C3_mass_policy_witness :
    massObjSel (0:ℤ) (fun _ : Fin 1 => (1:ℝ)) (fun _ => (2:ℝ))
      = Except.ok ((fun _ : Fin 1 => (1:ℝ)) + fun _ => (2:ℝ)) ∧
    harden dfPolicy5 ⟨true, true⟩ 1 1 (fun _ _ a => (a, a))
      (fun _ : Fin 1 => 1) (fun _ => 2) (fun _ => 3) (fun _ => 4) (fun _ => 5) (fun _ => 6)
      (fun _ => 7) (fun _ => 8) (fun _ => 9) (fun _ => 10)
      = Except.error (errStr 5) :=
  ⟨(C3_mass_policy dfPolicy0 ⟨true, true⟩ 1 1 (fun _ _ a => (a, a)) (fun _ : Fin 1 => (1:ℝ))
      (fun _ => (2:ℝ)) (fun _ => 3) (fun _ => 4) (fun _ => 5) (fun _ => 6) (fun _ => 7)
      (fun _ => 8) (fun _ => 9) (fun _ => 10)).1 rfl,
   (C3_mass_policy dfPolicy5 ⟨true, true⟩ 1 1 (fun _ _ a => (a, a)) (fun _ : Fin 1 => (1:ℝ))
      (fun _ => (2:ℝ)) (fun _ => 3) (fun _ => 4) (fun _ => 5) (fun _ => 6) (fun _ => 7)
      (fun _ => 8) (fun _ => 9) (fun _ => 10)).2.2.2 (by decide) (by decide) (by decide)⟩

/-- C6: a successful `harden` call computes the gas-drag deceleration with the
full formula at gas density and dispersion `vdisp * GAS_VEL_SOFT` (with the
disk-mask applied, `gasDvdt`), the background deceleration from the combined
density `dens_stars + dens_dm` (attenuated formula when `DF_ATTENUATED`, full
formula otherwise), converts both element-wise through the external routine
`dvdt_to_dadt (rads, v_circ, dvdt)`, and returns the pair of first components,
discarding the characteristic timescales. -/
theorem C6_harden_pipeline (cfg : DFConfig) (sets : Settings) (NWTG MSOL : ℝ)
    (f : ℝ → ℝ → ℝ → ℝ × ℝ) {n : ℕ}
    (m1 m2 rads dens_gas dens_stars dens_dm vdisp rads_hard mass_stars rads_sg : Fin n → ℝ)
    (mass_obj : Fin n → ℝ)
    (hm : massObjSel cfg.DF_WHICH_BH m1 m2 = Except.ok mass_obj) :
    harden cfg sets NWTG MSOL f m1 m2 rads dens_gas dens_stars dens_dm vdisp rads_hard
        mass_stars rads_sg
      = Except.ok
        (fun i => (f (rads i) (_vel_circ NWTG (m1 i) (m2 i) (rads i))
            ((if cfg.DF_ATTENUATED then
                _dvdt_attenuated NWTG mass_obj rads (fun j => dens_stars j + dens_dm j)
                  (fun j => _vel_circ NWTG (m1 j) (m2 j) (rads j)) vdisp cfg.COULOMB_LOGARITHM
                  rads_hard (cfg.MSTAR * MSOL) mass_stars
              else fun j => _dvdt_full NWTG (mass_obj j) (rads j) (dens_stars j + dens_dm j)
                  (_vel_circ NWTG (m1 j) (m2 j) (rads j)) (vdisp j) cfg.COULOMB_LOGARITHM) i)).1,
         fun i => (f (rads i) (_vel_circ NWTG (m1 i) (m2 i) (rads i))
            (gasDvdt cfg sets NWTG mass_obj rads dens_gas
              (fun j => _vel_circ NWTG (m1 j) (m2 j) (rads j)) vdisp rads_sg i)).1) :=
  harden_ok cfg sets NWTG MSOL f m1 m2 rads dens_gas dens_stars dens_dm vdisp rads_hard
    mass_stars rads_sg mass_obj hm

/-- Witness for C6 at concrete inputs. -/
theorem C6_harden_pipeline_witness :
    exceptOk (harden defaultDF ⟨true, true⟩ 1 1 (fun _ _ a => (a, a)) (fun _ : Fin 1 => 1)
      (fun _ => 2) (fun _ => 3) (fun _ => 4) (fun _ => 5) (fun _ => 6) (fun _ => 7)
      (fun _ => 8) (fun _ => 9) (fun _ => 10)) = true := by
  rw [C6_harden_pipeline defaultDF ⟨true, true⟩ 1 1 (fun _ _ a => (a, a)) (fun _ : Fin 1 => 1)
    (fun _ => 2) (fun _ => 3) (fun _ => 4) (fun _ => 5) (fun _ => 6) (fun _ => 7) (fun _ => 8)
    (fun _ => 9) (fun _ => 10) (fun _ => 2) rfl]
  rfl

/-- C10: on plain scalar inputs, with attenuation enabled (the default
configuration) or with both disk-suppression flags active, `harden` reaches a
boolean-mask item assignment on a scalar intermediate and fails with the
numpy `TypeError`; those paths support only array inputs. -/
theorem C10_scalar_inputs_fail (cfg : DFConfig) (sets : Settings) (NWTG MSOL : ℝ)
    (f : ℝ → ℝ → ℝ → ℝ × ℝ)
    (m1 m2 rads dens_gas dens_stars dens_dm vdisp rads_hard mass_stars rads_sg mass_obj : ℝ)
    (hm : massObjSel cfg.DF_WHICH_BH m1 m2 = Except.ok mass_obj)
    (hcfg : cfg.DF_ATTENUATED = true ∨
      (sets.VISC_DISK_FLAG = true ∧ sets.SELF_GRAV_RAD = true)) :
    hardenScalar cfg sets NWTG MSOL f m1 m2 rads dens_gas dens_stars dens_dm vdisp rads_hard
        mass_stars rads_sg
      = Except.error scalarAssignErr := by
  simp only [hardenScalar, hm]
  rcases hcfg with h | ⟨h1, h2⟩
  · rcases Bool.eq_false_or_eq_true (sets.VISC_DISK_FLAG && sets.SELF_GRAV_RAD) with hb | hb
    · simp [hb, h]
    · simp [hb, h]
  · simp [h1, h2]

/-- Witness for C10: the default configuration fails on scalar inputs even
with both disk flags off. -/
theorem C10_scalar_inputs_fail_witness :
    hardenScalar defaultDF ⟨false, false⟩ 1 1 (fun _ _ a => (a, a)) 1 1 1 1 1 1 1 1 1 1
      = Except.error scalarAssignErr :=
  C10_scalar_inputs_fail defaultDF ⟨false, false⟩ 1 1 (fun _ _ a => (a, a)) 1 1 1 1 1 1 1 1 1 1
    1 rfl (Or.inl rfl)

/-! ### Partiality-tracking embedding

The two numerically degenerate sites named by the spec — the division by
`vel_obj^2` in `_dvdt_full` (line 117) and `np.log(numStars)` in
`_dvdt_attenuated` (line 140) — are also embedded with signalling operations:
the numeric library raises its own signal on a zero denominator or a
non-positive logarithm argument, and the embedding threads that signal
through the rest of the computation.  A formula that checked, clamped or
substituted a value before the operation would differ from this embedding on
the degenerate set; the theorems below show the source formulas signal there
and agree exactly with the total embedding everywhere else. -/

/-- Signal produced by the numeric library when a division by zero is
performed. -/
def divZeroSignal : String := "numeric-library signal: divide by zero"

/-- Signal produced by the numeric library when the logarithm of a
non-positive number is taken. -/
def logDomainSignal : String := "numeric-library signal: log domain error"

/-- Division that signals on a zero denominator instead of being totalized. -/
def pdiv (a b : ℝ) : Except String ℝ :=
  if b = 0 then Except.error divZeroSignal else Except.ok (a / b)

/-- Logarithm that signals on a non-positive argument instead of being
totalized. -/
def plog (x : ℝ) : Except String ℝ :=
  if x ≤ 0 then Except.error logDomainSignal else Except.ok (Real.log x)

/-- Partiality-tracking translation of `_dvdt_full` (lines 107-121): line for
line the same as `_dvdt_full`, except that the division by `vel_obj^2`
(line 117, the site named by the spec) goes through the signalling division
exactly where the source performs it.  No check, clamp or substitution
precedes it. -/
def _dvdt_full_checked (NWTG mass_obj rads dens vel_obj vdisp coul : ℝ) :
    Except String ℝ :=
  let velf := vel_obj / (vdisp * Real.sqrt 2)
  let const := -4 * Real.pi * NWTG ^ 2
  match pdiv (mass_obj * dens) (vel_obj ^ 2) with
  | Except.error e => Except.error e
  | Except.ok pref =>
    let erfs := |erf velf - 2 * velf / Real.sqrt Real.pi * Real.exp (-velf ^ 2)|
    Except.ok (const * pref * erfs * coul)

/-- Partiality-tracking translation of `_dvdt_attenuated` (lines 124-148):
line for line the same as `_dvdt_attenuated`, except that the inner full
formula carries its division signal (line 136) and `np.log(numStars)`
(line 140, the site named by the spec) goes through the signalling logarithm.
Both execute, in source order, for every element before the hard-binary mask
is applied — numpy evaluates `atten1` on the whole array at line 140 — so a
degenerate argument signals regardless of the mask. -/
def _dvdt_attenuated_checked (NWTG : ℝ) {n : ℕ}
    (mass_obj rads dens vel_obj vdisp : Fin n → ℝ) (coul : ℝ)
    (rads_hard : Fin n → ℝ) (mstar : ℝ) (mass_stars : Fin n → ℝ) :
    Fin n → Except String ℝ :=
  fun i =>
    match _dvdt_full_checked NWTG (mass_obj i) (rads i) (dens i) (vel_obj i) (vdisp i)
        coul with
    | Except.error e => Except.error e
    | Except.ok dvdt_atten =>
      let numStars := mass_stars i / mstar
      match plog numStars with
      | Except.error e => Except.error e
      | Except.ok logNumStars =>
        let atten1 := logNumStars * rads_hard i / rads i
        let atten2 := (mass_obj i / mass_stars i) ^ 2 * numStars
        let lc := max atten1 atten2
        Except.ok (if rads i < rads_hard i then dvdt_atten / lc else dvdt_atten)

/-- C7: numerically degenerate inputs are not internally guarded.  At
`vel_obj = 0` the full-drag formula performs the division by `vel_obj^2` and
the division signal is the result — no prior check intercepts it; for
`vel_obj` nonzero the checked formula agrees exactly with the total
embedding, so nothing is clamped or substituted.  Likewise, when
`numStars = mass_stars / mstar <= 0` the attenuation formula takes the
logarithm of a non-positive number and the log signal is the result at every
element, whatever the hard-binary mask; when `numStars > 0` it agrees exactly
with the total embedding. -/
theorem C7_no_internal_guards (NWTG : ℝ) {n : ℕ}
    (mass_obj rads dens vel_obj vdisp : Fin n → ℝ) (coul : ℝ)
    (rads_hard : Fin n → ℝ) (mstar : ℝ) (mass_stars : Fin n → ℝ)
    (m r d v vd : ℝ) (i : Fin n) :
    (_dvdt_full_checked NWTG m r d 0 vd coul = Except.error divZeroSignal) ∧
    (v ≠ 0 → _dvdt_full_checked NWTG m r d v vd coul
        = Except.ok (_dvdt_full NWTG m r d v vd coul)) ∧
    (vel_obj i ≠ 0 → mass_stars i / mstar ≤ 0 →
      _dvdt_attenuated_checked NWTG mass_obj rads dens vel_obj vdisp coul rads_hard mstar
          mass_stars i
        = Except.error logDomainSignal) ∧
    (vel_obj i ≠ 0 → 0 < mass_stars i / mstar →
      _dvdt_attenuated_checked NWTG mass_obj rads dens vel_obj vdisp coul rads_hard mstar
          mass_stars i
        = Except.ok (_dvdt_attenuated NWTG mass_obj rads dens vel_obj vdisp coul rads_hard
            mstar mass_stars i)) := by
  have hok : ∀ w : ℝ, w ≠ 0 → ∀ mo ra de vdi : ℝ,
      _dvdt_full_checked NWTG mo ra de w vdi coul
        = Except.ok (_dvdt_full NWTG mo ra de w vdi coul) := by
    intro w hw mo ra de vdi
    simp only [_dvdt_full_checked, pdiv, if_neg (pow_ne_zero 2 hw), _dvdt_full]
  refine ⟨?_, fun hv => hok v hv m r d vd, ?_, ?_⟩
  · simp [_dvdt_full_checked, pdiv]
  · intro hv hns
    simp only [_dvdt_attenuated_checked, hok (vel_obj i) hv, plog, if_pos hns]
  · intro hv hns
    simp only [_dvdt_attenuated_checked, hok (vel_obj i) hv, plog,
      if_neg (not_le.mpr hns), _dvdt_attenuated, lcAtten]

/-- Witness for C7: the division signal at zero velocity and the log signal
at a negative stellar mass both reach the output. -/
theorem C7_no_internal_guards_witness :
    _dvdt_full_checked 1 2 3 4 0 5 15 = Except.error divZeroSignal ∧
    _dvdt_attenuated_checked 1 (fun _ : Fin 1 => 2) (fun _ => 3) (fun _ => 4) (fun _ => 1)
        (fun _ => 5) 15 (fun _ => 6) 1 (fun _ => -2) 0 = Except.error logDomainSignal :=
  ⟨(C7_no_internal_guards 1 (fun _ : Fin 1 => 2) (fun _ => 3) (fun _ => 4) (fun _ => 1)
      (fun _ => 5) 15 (fun _ => 6) 1 (fun _ => -2) 2 3 4 0 5 0).1,
   (C7_no_internal_guards 1 (fun _ : Fin 1 => 2) (fun _ => 3) (fun _ => 4) (fun _ => 1)
      (fun _ => 5) 15 (fun _ => 6) 1 (fun _ => -2) 2 3 4 0 5 0).2.2.1 (by norm_num)
     (by norm_num)⟩

/-! ### Store-passing embedding

Frame and purity claims concern in-place mutation, so arrays are also
modelled as cells of a store (a list of arrays addressed by position).  A
numpy arithmetic operation allocates a fresh array at the end of the store;
the two boolean-masked assignments of the source
(`dvdt_g[inds] = 0.0`, line 89, and `dvdt_atten[inds] /= lcAtten[inds]`,
line 146) mutate, in place, the cell holding the array they are applied to.
Name binding (`mass_obj = m1`) aliases an address without copying. -/

/-- Reads the array stored at address `a`; an absent address reads as the
zero array. -/
def readA {n : ℕ} (σ : List (Fin n → ℝ)) (a : ℕ) : Fin n → ℝ := σ.getD a 0

/-- Reading below the end of a store is unaffected by appended cells. -/
theorem readA_append_lt {n : ℕ} (σ l : List (Fin n → ℝ)) (a : ℕ) (ha : a < σ.length) :
    readA (σ ++ l) a = readA σ a := by
  simp [readA, List.getD_eq_getElem?_getD, List.getElem?_append_left ha]

/-- Reading a freshly appended cell yields the appended array. -/
theorem readA_append_self {n : ℕ} (σ : List (Fin n → ℝ)) (v : Fin n → ℝ) :
    readA (σ ++ [v]) σ.length = v := by
  simp [readA, List.getD_eq_getElem?_getD, List.getElem?_append_right (Nat.le_refl _)]

/-- Writing one cell does not change the others. -/
theorem readA_set_ne {n : ℕ} (σ : List (Fin n → ℝ)) (b : ℕ) (v : Fin n → ℝ) (a : ℕ)
    (h : b ≠ a) : readA (σ.set b v) a = readA σ a := by
  simp [readA, List.getD_eq_getElem?_getD, List.getElem?_set_ne h]

/-- Reading a just-written cell yields the written array. -/
theorem readA_set_self {n : ℕ} (σ : List (Fin n → ℝ)) (b : ℕ) (v : Fin n → ℝ)
    (h : b < σ.length) : readA (σ.set b v) b = v := by
  simp [readA, List.getD_eq_getElem?_getD, List.getElem?_set_self h]

/-- Allocation of the circular-velocity array (line 79). -/
def vcircStore (NWTG : ℝ) {n : ℕ} (σ : List (Fin n → ℝ)) (am1 am2 arads : ℕ) :
    List (Fin n → ℝ) :=
  σ ++ [fun i => _vel_circ NWTG (readA σ am1 i) (readA σ am2 i) (readA σ arads i)]

/-- Allocation of the softened gas velocity array (line 82). -/
def gasvelStore (cfg : DFConfig) {n : ℕ} (σ : List (Fin n → ℝ)) (avdisp : ℕ) :
    List (Fin n → ℝ) :=
  σ ++ [fun i => readA σ avdisp i * cfg.GAS_VEL_SOFT]

/-- Allocation of the gas-drag deceleration array (line 83). -/
def dvdtgStore (cfg : DFConfig) (NWTG : ℝ) {n : ℕ} (σ : List (Fin n → ℝ))
    (amass arads adgas avcirc agasvel : ℕ) : List (Fin n → ℝ) :=
  σ ++ [fun i => _dvdt_full NWTG (readA σ amass i) (readA σ arads i)
      (readA σ adgas i) (readA σ avcirc i) (readA σ agasvel i) cfg.COULOMB_LOGARITHM]

/-- In-place masked zeroing of the gas-drag cell (lines 85-89), performed only
when both disk flags are set. -/
def gasMaskStore (sets : Settings) {n : ℕ} (σ : List (Fin n → ℝ)) (b arads arsg : ℕ) :
    List (Fin n → ℝ) :=
  if sets.VISC_DISK_FLAG && sets.SELF_GRAV_RAD then
    σ.set b (fun i =>
      if readA σ arads i < readA σ arsg i ∧ 0 < readA σ arsg i then 0 else readA σ b i)
  else σ

/-- Allocation of the combined stellar plus dark-matter density (line 91). -/
def densoStore {n : ℕ} (σ : List (Fin n → ℝ)) (adstars addm : ℕ) : List (Fin n → ℝ) :=
  σ ++ [fun i => readA σ adstars i + readA σ addm i]

/-- The background-deceleration step (lines 94-99): with attenuation, allocate
the full-formula array and mutate it in place by the masked division of
line 146; without attenuation, just allocate the full-formula array.  Returns
the new store and the address of the result. -/
def dvdtStore (cfg : DFConfig) (NWTG MSOL : ℝ) {n : ℕ} (σ : List (Fin n → ℝ))
    (amass arads adenso avcirc avdisp ardsh amstars : ℕ) : List (Fin n → ℝ) × ℕ :=
  if cfg.DF_ATTENUATED then
    let τ := σ ++ [fun i => _dvdt_full NWTG (readA σ amass i) (readA σ arads i)
        (readA σ adenso i) (readA σ avcirc i) (readA σ avdisp i) cfg.COULOMB_LOGARITHM]
    let aatt := σ.length
    (τ.set aatt (fun i =>
      if readA τ arads i < readA τ ardsh i then
        readA τ aatt i /
          lcAtten (readA τ amass i) (readA τ arads i) (readA τ ardsh i)
            (cfg.MSTAR * MSOL) (readA τ amstars i)
      else readA τ aatt i), aatt)
  else
    (σ ++ [fun i => _dvdt_full NWTG (readA σ amass i) (readA σ arads i)
        (readA σ adenso i) (readA σ avcirc i) (readA σ avdisp i) cfg.COULOMB_LOGARITHM],
     σ.length)

/-- Allocation of a converted hardening-rate array (lines 101-102), keeping
only the first component of the conversion routine. -/
def dadtStore (f : ℝ → ℝ → ℝ → ℝ × ℝ) {n : ℕ} (σ : List (Fin n → ℝ))
    (arads avcirc advdt : ℕ) : List (Fin n → ℝ) :=
  σ ++ [fun i => (f (readA σ arads i) (readA σ avcirc i) (readA σ advdt i)).1]

/-- Store-passing body of `harden` after object-mass selection (lines 76-104):
each numpy operation allocates a fresh cell; the masked assignment of line 89
and the masked division inside `_dvdt_attenuated` (line 146) mutate the
freshly allocated cells in place.  `amass` is the address of the selected
object-mass array.  Returns the final store and the addresses of the two
result arrays (total, gas). -/
def hardenStepStore (cfg : DFConfig) (sets : Settings) (NWTG MSOL : ℝ)
    (f : ℝ → ℝ → ℝ → ℝ × ℝ) {n : ℕ} (σa : List (Fin n → ℝ))
    (am1 am2 arads adgas adstars addm avdisp ardsh amstars arsg amass : ℕ) :
    List (Fin n → ℝ) × ℕ × ℕ :=
  let avcirc := σa.length
  let σ1 := vcircStore NWTG σa am1 am2 arads
  let agasvel := σ1.length
  let σ2 := gasvelStore cfg σ1 avdisp
  let advdtg := σ2.length
  let σ3 := dvdtgStore cfg NWTG σ2 amass arads adgas avcirc agasvel
  let σ4 := gasMaskStore sets σ3 advdtg arads arsg
  let adenso := σ4.length
  let σ5 := densoStore σ4 adstars addm
  let p := dvdtStore cfg NWTG MSOL σ5 amass arads adenso avcirc avdisp ardsh amstars
  let adadt := p.1.length
  let σ7 := dadtStore f p.1 arads avcirc p.2
  let adadtg := σ7.length
  let σ8 := dadtStore f σ7 arads avcirc advdtg
  (σ8, adadt, adadtg)

/-- Store-passing embedding of `harden` (lines 28-104): selects the
object-mass address per the configured policy (aliasing an input for policies
1 and 2, allocating the fresh sum `m1 + m2` for policy 0), fails with the
configuration error on any other policy without touching the store, and
otherwise runs the body.  Returns the final store and either the error or the
addresses of the two result arrays. -/
def hardenStore (cfg : DFConfig) (sets : Settings) (NWTG MSOL : ℝ)
    (f : ℝ → ℝ → ℝ → ℝ × ℝ) {n : ℕ} (σ0 : List (Fin n → ℝ))
    (am1 am2 arads adgas adstars addm avdisp ardsh amstars arsg : ℕ) :
    List (Fin n → ℝ) × Except String (ℕ × ℕ) :=
  if cfg.DF_WHICH_BH = 1 then
    let p := hardenStepStore cfg sets NWTG MSOL f σ0
      am1 am2 arads adgas adstars addm avdisp ardsh amstars arsg am1
    (p.1, Except.ok p.2)
  else if cfg.DF_WHICH_BH = 2 then
    let p := hardenStepStore cfg sets NWTG MSOL f σ0
      am1 am2 arads adgas adstars addm avdisp ardsh amstars arsg am2
    (p.1, Except.ok p.2)
  else if cfg.DF_WHICH_BH = 0 then
    let σm := σ0 ++ [fun i => readA σ0 am1 i + readA σ0 am2 i]
    let p := hardenStepStore cfg sets NWTG MSOL f σm
      am1 am2 arads adgas adstars addm avdisp ardsh amstars arsg σ0.length
    (p.1, Except.ok p.2)
  else (σ0, Except.error (errStr cfg.DF_WHICH_BH))

/-- Length bookkeeping for the allocation and mutation steps. -/
theorem vcircStore_length (NWTG : ℝ) {n : ℕ} (σ : List (Fin n → ℝ)) (am1 am2 arads : ℕ) :
    (vcircStore NWTG σ am1 am2 arads).length = σ.length + 1 := by
  simp [vcircStore]

theorem gasvelStore_length (cfg : DFConfig) {n : ℕ} (σ : List (Fin n → ℝ)) (avdisp : ℕ) :
    (gasvelStore cfg σ avdisp).length = σ.length + 1 := by
  simp [gasvelStore]

theorem dvdtgStore_length (cfg : DFConfig) (NWTG : ℝ) {n : ℕ} (σ : List (Fin n → ℝ))
    (amass arads adgas avcirc agasvel : ℕ) :
    (dvdtgStore cfg NWTG σ amass arads adgas avcirc agasvel).length = σ.length + 1 := by
  simp [dvdtgStore]

theorem gasMaskStore_length (sets : Settings) {n : ℕ} (σ : List (Fin n → ℝ))
    (b arads arsg : ℕ) : (gasMaskStore sets σ b arads arsg).length = σ.length := by
  simp only [gasMaskStore]
  split_ifs <;> simp

theorem densoStore_length {n : ℕ} (σ : List (Fin n → ℝ)) (adstars addm : ℕ) :
    (densoStore σ adstars addm).length = σ.length + 1 := by
  simp [densoStore]

theorem dvdtStore_length (cfg : DFConfig) (NWTG MSOL : ℝ) {n : ℕ} (σ : List (Fin n → ℝ))
    (amass arads adenso avcirc avdisp ardsh amstars : ℕ) :
    (dvdtStore cfg NWTG MSOL σ amass arads adenso avcirc avdisp ardsh amstars).1.length
      = σ.length + 1 := by
  simp only [dvdtStore]
  split_ifs <;> simp

theorem dvdtStore_addr (cfg : DFConfig) (NWTG MSOL : ℝ) {n : ℕ} (σ : List (Fin n → ℝ))
    (amass arads adenso avcirc avdisp ardsh amstars : ℕ) :
    (dvdtStore cfg NWTG MSOL σ amass arads adenso avcirc avdisp ardsh amstars).2
      = σ.length := by
  simp only [dvdtStore]
  split_ifs <;> rfl

theorem dadtStore_length (f : ℝ → ℝ → ℝ → ℝ × ℝ) {n : ℕ} (σ : List (Fin n → ℝ))
    (arads avcirc advdt : ℕ) :
    (dadtStore f σ arads avcirc advdt).length = σ.length + 1 := by
  simp [dadtStore]

/-- Frame lemmas: each step leaves pre-existing cells unchanged (mutation
steps touch only the given fresh address). -/
theorem vcircStore_frame (NWTG : ℝ) {n : ℕ} (σ : List (Fin n → ℝ)) (am1 am2 arads a : ℕ)
    (ha : a < σ.length) : readA (vcircStore NWTG σ am1 am2 arads) a = readA σ a :=
  readA_append_lt σ _ a ha

theorem gasvelStore_frame (cfg : DFConfig) {n : ℕ} (σ : List (Fin n → ℝ)) (avdisp a : ℕ)
    (ha : a < σ.length) : readA (gasvelStore cfg σ avdisp) a = readA σ a :=
  readA_append_lt σ _ a ha

theorem dvdtgStore_frame (cfg : DFConfig) (NWTG : ℝ) {n : ℕ} (σ : List (Fin n → ℝ))
    (amass arads adgas avcirc agasvel a : ℕ) (ha : a < σ.length) :
    readA (dvdtgStore cfg NWTG σ amass arads adgas avcirc agasvel) a = readA σ a :=
  readA_append_lt σ _ a ha

theorem gasMaskStore_frame (sets : Settings) {n : ℕ} (σ : List (Fin n → ℝ))
    (b arads arsg a : ℕ) (hb : b ≠ a) :
    readA (gasMaskStore sets σ b arads arsg) a = readA σ a := by
  simp only [gasMaskStore]
  split_ifs
  · exact readA_set_ne σ b _ a hb
  · rfl

theorem densoStore_frame {n : ℕ} (σ : List (Fin n → ℝ)) (adstars addm a : ℕ)
    (ha : a < σ.length) : readA (densoStore σ adstars addm) a = readA σ a :=
  readA_append_lt σ _ a ha

theorem dvdtStore_frame (cfg : DFConfig) (NWTG MSOL : ℝ) {n : ℕ} (σ : List (Fin n → ℝ))
    (amass arads adenso avcirc avdisp ardsh amstars a : ℕ) (ha : a < σ.length) :
    readA (dvdtStore cfg NWTG MSOL σ amass arads adenso avcirc avdisp ardsh amstars).1 a
      = readA σ a := by
  simp only [dvdtStore]
  split_ifs
  · rw [readA_set_ne _ _ _ a (by omega)]
    exact readA_append_lt σ _ a ha
  · exact readA_append_lt σ _ a ha

theorem dadtStore_frame (f : ℝ → ℝ → ℝ → ℝ × ℝ) {n : ℕ} (σ : List (Fin n → ℝ))
    (arads avcirc advdt a : ℕ) (ha : a < σ.length) :
    readA (dadtStore f σ arads avcirc advdt) a = readA σ a :=
  readA_append_lt σ _ a ha

/-- Length of the store-passing body: seven fresh cells are allocated. -/
theorem hardenStepStore_length (cfg : DFConfig) (sets : Settings) (NWTG MSOL : ℝ)
    (f : ℝ → ℝ → ℝ → ℝ × ℝ) {n : ℕ} (σa : List (Fin n → ℝ))
    (am1 am2 arads adgas adstars addm avdisp ardsh amstars arsg amass : ℕ) :
    (hardenStepStore cfg sets NWTG MSOL f σa
        am1 am2 arads adgas adstars addm avdisp ardsh amstars arsg amass).1.length
      = σa.length + 7 := by
  simp only [hardenStepStore, dadtStore_length, dvdtStore_length, densoStore_length,
    gasMaskStore_length, dvdtgStore_length, gasvelStore_length, vcircStore_length]

/-- Frame property of the store-passing body: every cell present before the
call, input arrays included, is unchanged afterward; the only mutated cells
are the freshly allocated intermediates. -/
theorem hardenStepStore_frame (cfg : DFConfig) (sets : Settings) (NWTG MSOL : ℝ)
    (f : ℝ → ℝ → ℝ → ℝ × ℝ) {n : ℕ} (σa : List (Fin n → ℝ))
    (am1 am2 arads adgas adstars addm avdisp ardsh amstars arsg amass : ℕ)
    (a : ℕ) (ha : a < σa.length) :
    readA (hardenStepStore cfg sets NWTG MSOL f σa
        am1 am2 arads adgas adstars addm avdisp ardsh amstars arsg amass).1 a
      = readA σa a := by
  simp only [hardenStepStore]
  rw [dadtStore_frame _ _ _ _ _ a (by
    simp only [dadtStore_length, dvdtStore_length, densoStore_length, gasMaskStore_length,
      dvdtgStore_length, gasvelStore_length, vcircStore_length]
    omega)]
  rw [dadtStore_frame _ _ _ _ _ a (by
    simp only [dvdtStore_length, densoStore_length, gasMaskStore_length,
      dvdtgStore_length, gasvelStore_length, vcircStore_length]
    omega)]
  rw [dvdtStore_frame _ _ _ _ _ _ _ _ _ _ _ a (by
    simp only [densoStore_length, gasMaskStore_length, dvdtgStore_length,
      gasvelStore_length, vcircStore_length]
    omega)]
  rw [densoStore_frame _ _ _ a (by
    simp only [gasMaskStore_length, dvdtgStore_length, gasvelStore_length, vcircStore_length]
    omega)]
  rw [gasMaskStore_frame _ _ _ _ _ a (by
    simp only [gasvelStore_length, vcircStore_length]
    omega)]
  rw [dvdtgStore_frame _ _ _ _ _ _ _ _ a (by
    simp only [gasvelStore_length, vcircStore_length]
    omega)]
  rw [gasvelStore_frame _ _ _ a (by
    simp only [vcircStore_length]
    omega)]
  exact vcircStore_frame _ _ _ _ _ a ha

/-- Reading the freshly allocated cell of each step yields the computed
array. -/
theorem vcircStore_read (NWTG : ℝ) {n : ℕ} (σ : List (Fin n → ℝ)) (am1 am2 arads : ℕ) :
    readA (vcircStore NWTG σ am1 am2 arads) σ.length
      = fun i => _vel_circ NWTG (readA σ am1 i) (readA σ am2 i) (readA σ arads i) :=
  readA_append_self σ _

theorem gasvelStore_read (cfg : DFConfig) {n : ℕ} (σ : List (Fin n → ℝ)) (avdisp : ℕ) :
    readA (gasvelStore cfg σ avdisp) σ.length
      = fun i => readA σ avdisp i * cfg.GAS_VEL_SOFT :=
  readA_append_self σ _

theorem dvdtgStore_read (cfg : DFConfig) (NWTG : ℝ) {n : ℕ} (σ : List (Fin n → ℝ))
    (amass arads adgas avcirc agasvel : ℕ) :
    readA (dvdtgStore cfg NWTG σ amass arads adgas avcirc agasvel) σ.length
      = fun i => _dvdt_full NWTG (readA σ amass i) (readA σ arads i) (readA σ adgas i)
          (readA σ avcirc i) (readA σ agasvel i) cfg.COULOMB_LOGARITHM :=
  readA_append_self σ _

theorem densoStore_read {n : ℕ} (σ : List (Fin n → ℝ)) (adstars addm : ℕ) :
    readA (densoStore σ adstars addm) σ.length
      = fun i => readA σ adstars i + readA σ addm i :=
  readA_append_self σ _

theorem dadtStore_read (f : ℝ → ℝ → ℝ → ℝ × ℝ) {n : ℕ} (σ : List (Fin n → ℝ))
    (arads avcirc advdt : ℕ) :
    readA (dadtStore f σ arads avcirc advdt) σ.length
      = fun i => (f (readA σ arads i) (readA σ avcirc i) (readA σ advdt i)).1 :=
  readA_append_self σ _

theorem gasMaskStore_read (sets : Settings) {n : ℕ} (σ : List (Fin n → ℝ))
    (b arads arsg : ℕ) (hb : b < σ.length) :
    readA (gasMaskStore sets σ b arads arsg) b
      = if sets.VISC_DISK_FLAG && sets.SELF_GRAV_RAD then
          fun i => if readA σ arads i < readA σ arsg i ∧ 0 < readA σ arsg i then 0
            else readA σ b i
        else readA σ b := by
  simp only [gasMaskStore]
  split_ifs
  · exact readA_set_self σ b _ hb
  · rfl

theorem dvdtStore_read (cfg : DFConfig) (NWTG MSOL : ℝ) {n : ℕ} (σ : List (Fin n → ℝ))
    (amass arads adenso avcirc avdisp ardsh amstars : ℕ)
    (h1 : amass < σ.length) (h2 : arads < σ.length) (h3 : adenso < σ.length)
    (h4 : avcirc < σ.length) (h5 : avdisp < σ.length) (h6 : ardsh < σ.length)
    (h7 : amstars < σ.length) :
    readA (dvdtStore cfg NWTG MSOL σ amass arads adenso avcirc avdisp ardsh amstars).1
        σ.length
      = if cfg.DF_ATTENUATED then
          _dvdt_attenuated NWTG (readA σ amass) (readA σ arads) (readA σ adenso)
            (readA σ avcirc) (readA σ avdisp) cfg.COULOMB_LOGARITHM (readA σ ardsh)
            (cfg.MSTAR * MSOL) (readA σ amstars)
        else fun i => _dvdt_full NWTG (readA σ amass i) (readA σ arads i) (readA σ adenso i)
            (readA σ avcirc i) (readA σ avdisp i) cfg.COULOMB_LOGARITHM := by
  simp only [dvdtStore]
  split_ifs with h
  · rw [readA_set_self _ _ _ (by simp)]
    funext i
    simp only [readA_append_self, readA_append_lt _ _ _ h1, readA_append_lt _ _ _ h2,
      readA_append_lt _ _ _ h4, readA_append_lt _ _ _ h5, readA_append_lt _ _ _ h6,
      readA_append_lt _ _ _ h7, _dvdt_attenuated]
  · exact readA_append_self σ _

/-- Value characterization of the store-passing body: the two result cells
hold exactly the element-wise values of the pure embedding, as functions of
the arrays read from the entry store. -/
theorem hardenStepStore_reads (cfg : DFConfig) (sets : Settings) (NWTG MSOL : ℝ)
    (f : ℝ → ℝ → ℝ → ℝ × ℝ) {n : ℕ} (σa : List (Fin n → ℝ))
    (am1 am2 arads adgas adstars addm avdisp ardsh amstars arsg amass : ℕ)
    (hm1 : am1 < σa.length) (hm2 : am2 < σa.length) (hr : arads < σa.length)
    (hdg : adgas < σa.length) (hds : adstars < σa.length) (hdm : addm < σa.length)
    (hvd : avdisp < σa.length) (hrh : ardsh < σa.length) (hms : amstars < σa.length)
    (hrs : arsg < σa.length) (hma : amass < σa.length) :
    readA (hardenStepStore cfg sets NWTG MSOL f σa
        am1 am2 arads adgas adstars addm avdisp ardsh amstars arsg amass).1
      (hardenStepStore cfg sets NWTG MSOL f σa
        am1 am2 arads adgas adstars addm avdisp ardsh amstars arsg amass).2.1
      = (fun i => (f (readA σa arads i)
          (_vel_circ NWTG (readA σa am1 i) (readA σa am2 i) (readA σa arads i))
          ((if cfg.DF_ATTENUATED then
              _dvdt_attenuated NWTG (readA σa amass) (readA σa arads)
                (fun j => readA σa adstars j + readA σa addm j)
                (fun j => _vel_circ NWTG (readA σa am1 j) (readA σa am2 j) (readA σa arads j))
                (readA σa avdisp) cfg.COULOMB_LOGARITHM (readA σa ardsh)
                (cfg.MSTAR * MSOL) (readA σa amstars)
            else fun j => _dvdt_full NWTG (readA σa amass j) (readA σa arads j)
                (readA σa adstars j + readA σa addm j)
                (_vel_circ NWTG (readA σa am1 j) (readA σa am2 j) (readA σa arads j))
                (readA σa avdisp j) cfg.COULOMB_LOGARITHM) i)).1) ∧
    readA (hardenStepStore cfg sets NWTG MSOL f σa
        am1 am2 arads adgas adstars addm avdisp ardsh amstars arsg amass).1
      (hardenStepStore cfg sets NWTG MSOL f σa
        am1 am2 arads adgas adstars addm avdisp ardsh amstars arsg amass).2.2
      = fun i => (f (readA σa arads i)
          (_vel_circ NWTG (readA σa am1 i) (readA σa am2 i) (readA σa arads i))
          (gasDvdt cfg sets NWTG (readA σa amass) (readA σa arads) (readA σa adgas)
            (fun j => _vel_circ NWTG (readA σa am1 j) (readA σa am2 j) (readA σa arads j))
            (readA σa avdisp) (readA σa arsg) i)).1 := by
  constructor <;>
    simp (disch := (try simp only [dadtStore_length, dvdtStore_length, densoStore_length, gasMaskStore_length, dvdtgStore_length, gasvelStore_length, vcircStore_length]); omega)
      only [hardenStepStore, dvdtStore_addr, dadtStore_frame, dadtStore_read, dvdtStore_frame,
        dvdtStore_read, densoStore_frame, densoStore_read, gasMaskStore_frame,
        gasMaskStore_read, dvdtgStore_frame, dvdtgStore_read, gasvelStore_frame,
        gasvelStore_read, vcircStore_frame, vcircStore_read, gasDvdt]

/-- Frame property of the store-passing `harden`: every pre-existing cell is
unchanged by the call, in every policy branch (including the error branch,
which leaves the store untouched). -/
theorem hardenStore_frame_aux (cfg : DFConfig) (sets : Settings) (NWTG MSOL : ℝ)
    (f : ℝ → ℝ → ℝ → ℝ × ℝ) {n : ℕ} (σ0 : List (Fin n → ℝ))
    (am1 am2 arads adgas adstars addm avdisp ardsh amstars arsg : ℕ)
    (a : ℕ) (ha : a < σ0.length) :
    readA (hardenStore cfg sets NWTG MSOL f σ0
        am1 am2 arads adgas adstars addm avdisp ardsh amstars arsg).1 a
      = readA σ0 a := by
  simp only [hardenStore]
  split_ifs
  · exact hardenStepStore_frame cfg sets NWTG MSOL f σ0 _ _ _ _ _ _ _ _ _ _ _ a ha
  · exact hardenStepStore_frame cfg sets NWTG MSOL f σ0 _ _ _ _ _ _ _ _ _ _ _ a ha
  · rw [hardenStepStore_frame cfg sets NWTG MSOL f _ _ _ _ _ _ _ _ _ _ _ _ a
      (by simp only [List.length_append, List.length_cons, List.length_nil]; omega)]
    exact readA_append_lt σ0 _ a ha
  · rfl

/-- The store only grows: addresses valid before a `hardenStore` call remain
valid afterward. -/
theorem hardenStore_length_ge (cfg : DFConfig) (sets : Settings) (NWTG MSOL : ℝ)
    (f : ℝ → ℝ → ℝ → ℝ × ℝ) {n : ℕ} (σ0 : List (Fin n → ℝ))
    (am1 am2 arads adgas adstars addm avdisp ardsh amstars arsg : ℕ) :
    σ0.length ≤ (hardenStore cfg sets NWTG MSOL f σ0
        am1 am2 arads adgas adstars addm avdisp ardsh amstars arsg).1.length := by
  simp only [hardenStore]
  split_ifs
  · rw [hardenStepStore_length]
    omega
  · rw [hardenStepStore_length]
    omega
  · rw [hardenStepStore_length]
    simp only [List.length_append, List.length_cons, List.length_nil]
    omega
  · exact Nat.le_refl _

/-- The total-hardening output array of a store run of `harden` (read at the
returned address; the zero array on the error branch). -/
def storeOutTot (cfg : DFConfig) (sets : Settings) (NWTG MSOL : ℝ)
    (f : ℝ → ℝ → ℝ → ℝ × ℝ) {n : ℕ} (σ0 : List (Fin n → ℝ))
    (am1 am2 arads adgas adstars addm avdisp ardsh amstars arsg : ℕ) : Fin n → ℝ :=
  match hardenStore cfg sets NWTG MSOL f σ0
      am1 am2 arads adgas adstars addm avdisp ardsh amstars arsg with
  | (σf, Except.ok p) => readA σf p.1
  | (_, Except.error _) => 0

/-- The gas-only output array of a store run of `harden`. -/
def storeOutGas (cfg : DFConfig) (sets : Settings) (NWTG MSOL : ℝ)
    (f : ℝ → ℝ → ℝ → ℝ × ℝ) {n : ℕ} (σ0 : List (Fin n → ℝ))
    (am1 am2 arads adgas adstars addm avdisp ardsh amstars arsg : ℕ) : Fin n → ℝ :=
  match hardenStore cfg sets NWTG MSOL f σ0
      am1 am2 arads adgas adstars addm avdisp ardsh amstars arsg with
  | (σf, Except.ok p) => readA σf p.2
  | (_, Except.error _) => 0

/-- Ten-cell store holding the concrete input arrays used by the store
witnesses (addresses 0 through 9). -/
def sigW : List (Fin 1 → ℝ) :=
  [fun _ => 1, fun _ => 2, fun _ => 3, fun _ => 4, fun _ => 5,
   fun _ => 6, fun _ => 7, fun _ => 8, fun _ => 9, fun _ => 10]

/-- C8: `harden` never mutates its input arrays: every array cell present in
the store before the call, the ten inputs in particular, reads identically
after the call; the in-place masked updates (gas-drag zeroing, attenuation
division) land only on freshly allocated intermediate cells. -/
theorem C8_inputs_unchanged (cfg : DFConfig) (sets : Settings) (NWTG MSOL : ℝ)
    (f : ℝ → ℝ → ℝ → ℝ × ℝ) {n : ℕ} (σ0 : List (Fin n → ℝ))
    (am1 am2 arads adgas adstars addm avdisp ardsh amstars arsg : ℕ)
    (a : ℕ) (ha : a < σ0.length) :
    readA (hardenStore cfg sets NWTG MSOL f σ0
        am1 am2 arads adgas adstars addm avdisp ardsh amstars arsg).1 a
      = readA σ0 a :=
  hardenStore_frame_aux cfg sets NWTG MSOL f σ0
    am1 am2 arads adgas adstars addm avdisp ardsh amstars arsg a ha

/-- Witness for C8 on a concrete ten-cell store. -/
theorem C8_inputs_unchanged_witness :
    readA (hardenStore defaultDF ⟨true, true⟩ 1 1 (fun _ _ a => (a, a))
        sigW 0 1 2 3 4 5 6 7 8 9).1 2
      = readA sigW 2 :=
  C8_inputs_unchanged defaultDF ⟨true, true⟩ 1 1 (fun _ _ a => (a, a)) sigW
    0 1 2 3 4 5 6 7 8 9 2 (by simp [sigW])

/-- C9: running `harden` twice with identical inputs returns identical
outputs: the second run starts from the store the first run produced (where
any hidden-state drift would live), reads the same unchanged input cells, and
its two output arrays read equal to those of the first run; the function is
deterministic with no hidden state. -/
theorem C9_two_calls_identical (cfg : DFConfig) (sets : Settings) (NWTG MSOL : ℝ)
    (f : ℝ → ℝ → ℝ → ℝ × ℝ) {n : ℕ} (σ0 : List (Fin n → ℝ))
    (am1 am2 arads adgas adstars addm avdisp ardsh amstars arsg : ℕ)
    (h1 : am1 < σ0.length) (h2 : am2 < σ0.length) (h3 : arads < σ0.length)
    (h4 : adgas < σ0.length) (h5 : adstars < σ0.length) (h6 : addm < σ0.length)
    (h7 : avdisp < σ0.length) (h8 : ardsh < σ0.length) (h9 : amstars < σ0.length)
    (h10 : arsg < σ0.length) :
    storeOutTot cfg sets NWTG MSOL f
        (hardenStore cfg sets NWTG MSOL f σ0
          am1 am2 arads adgas adstars addm avdisp ardsh amstars arsg).1
        am1 am2 arads adgas adstars addm avdisp ardsh amstars arsg
      = storeOutTot cfg sets NWTG MSOL f σ0
          am1 am2 arads adgas adstars addm avdisp ardsh amstars arsg ∧
    storeOutGas cfg sets NWTG MSOL f
        (hardenStore cfg sets NWTG MSOL f σ0
          am1 am2 arads adgas adstars addm avdisp ardsh amstars arsg).1
        am1 am2 arads adgas adstars addm avdisp ardsh amstars arsg
      = storeOutGas cfg sets NWTG MSOL f σ0
          am1 am2 arads adgas adstars addm avdisp ardsh amstars arsg := by
  have hlen := hardenStore_length_ge cfg sets NWTG MSOL f σ0
    am1 am2 arads adgas adstars addm avdisp ardsh amstars arsg
  have F1 := hardenStore_frame_aux cfg sets NWTG MSOL f σ0
    am1 am2 arads adgas adstars addm avdisp ardsh amstars arsg am1 h1
  have F2 := hardenStore_frame_aux cfg sets NWTG MSOL f σ0
    am1 am2 arads adgas adstars addm avdisp ardsh amstars arsg am2 h2
  have F3 := hardenStore_frame_aux cfg sets NWTG MSOL f σ0
    am1 am2 arads adgas adstars addm avdisp ardsh amstars arsg arads h3
  have F4 := hardenStore_frame_aux cfg sets NWTG MSOL f σ0
    am1 am2 arads adgas adstars addm avdisp ardsh amstars arsg adgas h4
  have F5 := hardenStore_frame_aux cfg sets NWTG MSOL f σ0
    am1 am2 arads adgas adstars addm avdisp ardsh amstars arsg adstars h5
  have F6 := hardenStore_frame_aux cfg sets NWTG MSOL f σ0
    am1 am2 arads adgas adstars addm avdisp ardsh amstars arsg addm h6
  have F7 := hardenStore_frame_aux cfg sets NWTG MSOL f σ0
    am1 am2 arads adgas adstars addm avdisp ardsh amstars arsg avdisp h7
  have F8 := hardenStore_frame_aux cfg sets NWTG MSOL f σ0
    am1 am2 arads adgas adstars addm avdisp ardsh amstars arsg ardsh h8
  have F9 := hardenStore_frame_aux cfg sets NWTG MSOL f σ0
    am1 am2 arads adgas adstars addm avdisp ardsh amstars arsg amstars h9
  have F10 := hardenStore_frame_aux cfg sets NWTG MSOL f σ0
    am1 am2 arads adgas adstars addm avdisp ardsh amstars arsg arsg h10
  set σp := (hardenStore cfg sets NWTG MSOL f σ0
    am1 am2 arads adgas adstars addm avdisp ardsh amstars arsg).1 with hσp
  have h1p : am1 < σp.length := lt_of_lt_of_le h1 hlen
  have h2p : am2 < σp.length := lt_of_lt_of_le h2 hlen
  have h3p : arads < σp.length := lt_of_lt_of_le h3 hlen
  have h4p : adgas < σp.length := lt_of_lt_of_le h4 hlen
  have h5p : adstars < σp.length := lt_of_lt_of_le h5 hlen
  have h6p : addm < σp.length := lt_of_lt_of_le h6 hlen
  have h7p : avdisp < σp.length := lt_of_lt_of_le h7 hlen
  have h8p : ardsh < σp.length := lt_of_lt_of_le h8 hlen
  have h9p : amstars < σp.length := lt_of_lt_of_le h9 hlen
  have h10p : arsg < σp.length := lt_of_lt_of_le h10 hlen
  by_cases hw1 : cfg.DF_WHICH_BH = 1
  · constructor
    · simp only [storeOutTot, hardenStore, if_pos hw1]
      rw [(hardenStepStore_reads cfg sets NWTG MSOL f σp am1 am2 arads adgas adstars addm
          avdisp ardsh amstars arsg am1 h1p h2p h3p h4p h5p h6p h7p h8p h9p h10p h1p).1,
        (hardenStepStore_reads cfg sets NWTG MSOL f σ0 am1 am2 arads adgas adstars addm
          avdisp ardsh amstars arsg am1 h1 h2 h3 h4 h5 h6 h7 h8 h9 h10 h1).1]
      simp only [F1, F2, F3, F4, F5, F6, F7, F8, F9, F10]
    · simp only [storeOutGas, hardenStore, if_pos hw1]
      rw [(hardenStepStore_reads cfg sets NWTG MSOL f σp am1 am2 arads adgas adstars addm
          avdisp ardsh amstars arsg am1 h1p h2p h3p h4p h5p h6p h7p h8p h9p h10p h1p).2,
        (hardenStepStore_reads cfg sets NWTG MSOL f σ0 am1 am2 arads adgas adstars addm
          avdisp ardsh amstars arsg am1 h1 h2 h3 h4 h5 h6 h7 h8 h9 h10 h1).2]
      simp only [F1, F2, F3, F4, F5, F6, F7, F8, F9, F10]
  · by_cases hw2 : cfg.DF_WHICH_BH = 2
    · constructor
      · simp only [storeOutTot, hardenStore, if_neg hw1, if_pos hw2]
        rw [(hardenStepStore_reads cfg sets NWTG MSOL f σp am1 am2 arads adgas adstars addm
            avdisp ardsh amstars arsg am2 h1p h2p h3p h4p h5p h6p h7p h8p h9p h10p h2p).1,
          (hardenStepStore_reads cfg sets NWTG MSOL f σ0 am1 am2 arads adgas adstars addm
            avdisp ardsh amstars arsg am2 h1 h2 h3 h4 h5 h6 h7 h8 h9 h10 h2).1]
        simp only [F1, F2, F3, F4, F5, F6, F7, F8, F9, F10]
      · simp only [storeOutGas, hardenStore, if_neg hw1, if_pos hw2]
        rw [(hardenStepStore_reads cfg sets NWTG MSOL f σp am1 am2 arads adgas adstars addm
            avdisp ardsh amstars arsg am2 h1p h2p h3p h4p h5p h6p h7p h8p h9p h10p h2p).2,
          (hardenStepStore_reads cfg sets NWTG MSOL f σ0 am1 am2 arads adgas adstars addm
            avdisp ardsh amstars arsg am2 h1 h2 h3 h4 h5 h6 h7 h8 h9 h10 h2).2]
        simp only [F1, F2, F3, F4, F5, F6, F7, F8, F9, F10]
    · by_cases hw0 : cfg.DF_WHICH_BH = 0
      · constructor
        · simp only [storeOutTot, hardenStore, if_neg hw1, if_neg hw2, if_pos hw0]
          rw [(hardenStepStore_reads cfg sets NWTG MSOL f
              (σp ++ [fun i => readA σp am1 i + readA σp am2 i]) am1 am2 arads adgas
              adstars addm avdisp ardsh amstars arsg σp.length
              (by simp only [List.length_append, List.length_cons, List.length_nil]; omega)
              (by simp only [List.length_append, List.length_cons, List.length_nil]; omega)
              (by simp only [List.length_append, List.length_cons, List.length_nil]; omega)
              (by simp only [List.length_append, List.length_cons, List.length_nil]; omega)
              (by simp only [List.length_append, List.length_cons, List.length_nil]; omega)
              (by simp only [List.length_append, List.length_cons, List.length_nil]; omega)
              (by simp only [List.length_append, List.length_cons, List.length_nil]; omega)
              (by simp only [List.length_append, List.length_cons, List.length_nil]; omega)
              (by simp only [List.length_append, List.length_cons, List.length_nil]; omega)
              (by simp only [List.length_append, List.length_cons, List.length_nil]; omega)
              (by simp only [List.length_append, List.length_cons, List.length_nil]; omega)).1,
            (hardenStepStore_reads cfg sets NWTG MSOL f
              (σ0 ++ [fun i => readA σ0 am1 i + readA σ0 am2 i]) am1 am2 arads adgas
              adstars addm avdisp ardsh amstars arsg σ0.length
              (by simp only [List.length_append, List.length_cons, List.length_nil]; omega)
              (by simp only [List.length_append, List.length_cons, List.length_nil]; omega)
              (by simp only [List.length_append, List.length_cons, List.length_nil]; omega)
              (by simp only [List.length_append, List.length_cons, List.length_nil]; omega)
              (by simp only [List.length_append, List.length_cons, List.length_nil]; omega)
              (by simp only [List.length_append, List.length_cons, List.length_nil]; omega)
              (by simp only [List.length_append, List.length_cons, List.length_nil]; omega)
              (by simp only [List.length_append, List.length_cons, List.length_nil]; omega)
              (by simp only [List.length_append, List.length_cons, List.length_nil]; omega)
              (by simp only [List.length_append, List.length_cons, List.length_nil]; omega)
              (by simp only [List.length_append, List.length_cons, List.length_nil]; omega)).1]
          simp only [readA_append_self, readA_append_lt _ _ _ h1, readA_append_lt _ _ _ h2,
            readA_append_lt _ _ _ h3, readA_append_lt _ _ _ h4, readA_append_lt _ _ _ h5,
            readA_append_lt _ _ _ h6, readA_append_lt _ _ _ h7, readA_append_lt _ _ _ h8,
            readA_append_lt _ _ _ h9, readA_append_lt _ _ _ h10,
            readA_append_lt _ _ _ h1p, readA_append_lt _ _ _ h2p, readA_append_lt _ _ _ h3p,
            readA_append_lt _ _ _ h4p, readA_append_lt _ _ _ h5p, readA_append_lt _ _ _ h6p,
            readA_append_lt _ _ _ h7p, readA_append_lt _ _ _ h8p, readA_append_lt _ _ _ h9p,
            readA_append_lt _ _ _ h10p, F1, F2, F3, F4, F5, F6, F7, F8, F9, F10]
        · simp only [storeOutGas, hardenStore, if_neg hw1, if_neg hw2, if_pos hw0]
          rw [(hardenStepStore_reads cfg sets NWTG MSOL f
              (σp ++ [fun i => readA σp am1 i + readA σp am2 i]) am1 am2 arads adgas
              adstars addm avdisp ardsh amstars arsg σp.length
              (by simp only [List.length_append, List.length_cons, List.length_nil]; omega)
              (by simp only [List.length_append, List.length_cons, List.length_nil]; omega)
              (by simp only [List.length_append, List.length_cons, List.length_nil]; omega)
              (by simp only [List.length_append, List.length_cons, List.length_nil]; omega)
              (by simp only [List.length_append, List.length_cons, List.length_nil]; omega)
              (by simp only [List.length_append, List.length_cons, List.length_nil]; omega)
              (by simp only [List.length_append, List.length_cons, List.length_nil]; omega)
              (by simp only [List.length_append, List.length_cons, List.length_nil]; omega)
              (by simp only [List.length_append, List.length_cons, List.length_nil]; omega)
              (by simp only [List.length_append, List.length_cons, List.length_nil]; omega)
              (by simp only [List.length_append, List.length_cons, List.length_nil]; omega)).2,
            (hardenStepStore_reads cfg sets NWTG MSOL f
              (σ0 ++ [fun i => readA σ0 am1 i + readA σ0 am2 i]) am1 am2 arads adgas
              adstars addm avdisp ardsh amstars arsg σ0.length
              (by simp only [List.length_append, List.length_cons, List.length_nil]; omega)
              (by simp only [List.length_append, List.length_cons, List.length_nil]; omega)
              (by simp only [List.length_append, List.length_cons, List.length_nil]; omega)
              (by simp only [List.length_append, List.length_cons, List.length_nil]; omega)
              (by simp only [List.length_append, List.length_cons, List.length_nil]; omega)
              (by simp only [List.length_append, List.length_cons, List.length_nil]; omega)
              (by simp only [List.length_append, List.length_cons, List.length_nil]; omega)
              (by simp only [List.length_append, List.length_cons, List.length_nil]; omega)
              (by simp only [List.length_append, List.length_cons, List.length_nil]; omega)
              (by simp only [List.length_append, List.length_cons, List.length_nil]; omega)
              (by simp only [List.length_append, List.length_cons, List.length_nil]; omega)).2]
          simp only [readA_append_self, readA_append_lt _ _ _ h1, readA_append_lt _ _ _ h2,
            readA_append_lt _ _ _ h3, readA_append_lt _ _ _ h4, readA_append_lt _ _ _ h5,
            readA_append_lt _ _ _ h6, readA_append_lt _ _ _ h7, readA_append_lt _ _ _ h8,
            readA_append_lt _ _ _ h9, readA_append_lt _ _ _ h10,
            readA_append_lt _ _ _ h1p, readA_append_lt _ _ _ h2p, readA_append_lt _ _ _ h3p,
            readA_append_lt _ _ _ h4p, readA_append_lt _ _ _ h5p, readA_append_lt _ _ _ h6p,
            readA_append_lt _ _ _ h7p, readA_append_lt _ _ _ h8p, readA_append_lt _ _ _ h9p,
            readA_append_lt _ _ _ h10p, F1, F2, F3, F4, F5, F6, F7, F8, F9, F10]
      · constructor
        · simp only [storeOutTot, hardenStore, if_neg hw1, if_neg hw2, if_neg hw0]
        · simp only [storeOutGas, hardenStore, if_neg hw1, if_neg hw2, if_neg hw0]

/-- Witness for C9 on a concrete ten-cell store. -/
theorem C9_two_calls_identical_witness :
    storeOutTot defaultDF ⟨true, true⟩ 1 1 (fun _ _ a => (a, a))
        (hardenStore defaultDF ⟨true, true⟩ 1 1 (fun _ _ a => (a, a))
          sigW 0 1 2 3 4 5 6 7 8 9).1 0 1 2 3 4 5 6 7 8 9
      = storeOutTot defaultDF ⟨true, true⟩ 1 1 (fun _ _ a => (a, a))
          sigW 0 1 2 3 4 5 6 7 8 9 ∧
    storeOutGas defaultDF ⟨true, true⟩ 1 1 (fun _ _ a => (a, a))
        (hardenStore defaultDF ⟨true, true⟩ 1 1 (fun _ _ a => (a, a))
          sigW 0 1 2 3 4 5 6 7 8 9).1 0 1 2 3 4 5 6 7 8 9
      = storeOutGas defaultDF ⟨true, true⟩ 1 1 (fun _ _ a => (a, a))
          sigW 0 1 2 3 4 5 6 7 8 9 :=
  C9_two_calls_identical defaultDF ⟨true, true⟩ 1 1 (fun _ _ a => (a, a))
    sigW 0 1 2 3 4 5 6 7 8 9 (by simp [sigW]) (by simp [sigW]) (by simp [sigW])
    (by simp [sigW]) (by simp [sigW]) (by simp [sigW]) (by simp [sigW]) (by simp [sigW])
    (by simp [sigW]) (by simp [sigW])

end
